import Mathlib

/-! Download task state machine and version strings

A shallow embedding of `launcher/tasks/Task.cpp`, `launcher/net/Download.cpp` and
`launcher/Version.cpp`.

* The object state of a `Net::Download` (the members of `Task`, `NetAction` and
  `Download` that the code in the two files reads or writes) is the record
  `Download`.  `Download.cpp` has no state member of its own: `m_state`,
  `getState()` and `isRunning()` all refer to the one `Task::m_state`
  (`abort()` writes `m_state`, `executeTask()` reads it back through `getState()`).
* Everything observable that a handler does is appended, in program order, to
  `trace`: the Qt signals it emits and the calls it makes on the sink, on the
  network manager and on the reply.
* The sink (`Sink.h`), Qt's `QUrl` and the clock are external to the two files.
  They are parameters: `Sink` is an arbitrary state machine answering the calls,
  `QUrlOps` is an arbitrary implementation of the `QUrl` operations used, and the
  clock reading is the argument `now`.
* A slot that is invoked by a signal of the reply (`downloadFinished`) receives the
  reply it was invoked for as the argument `r`.
* Log output (`qCDebug`, `qCWarning`, `qCCritical`) and the request headers set in
  `executeTask` influence neither the control flow nor the state and are left out.
* A `QString` of `Version.cpp` is the list of its characters.  `Version::Section`
  (`Version.h`) is a parameter: its constructor and its operators are arbitrary.
-/

namespace Launcher

/-! ## Data model -/

/-- The enum `Task::State`. -/
inductive State where
  | Inactive
  | Running
  | Succeeded
  | Failed
  | AbortedByUser
  deriving DecidableEq, Repr

/-- The values of `QNetworkReply::NetworkError` that `Download.cpp` distinguishes;
every other value of the Qt enum is `Other code`. -/
inductive NetworkError where
  | OperationCanceledError
  | ProtocolFailure
  | Other (code : Nat)
  deriving DecidableEq, Repr

/-- The flag set `Download::Options`. -/
structure Options where
  AcceptLocalFiles : Bool
  MakeEternal : Bool
  deriving DecidableEq, Repr

/-- Observable actions of a task, in the order in which the code performs them. -/
inductive Event (U : Type) where
  | started
  | succeeded
  | failed (reason : String)
  | aborted
  | finished
  | status (text : String)
  | progress (current total : Int)
  | sinkInit (url : U)
  | sinkWrite (data : List Nat)
  | sinkFinalize
  | sinkAbort
  | networkGet (url : U)
  | replyAbort
  deriving DecidableEq, Repr

/-- What `Download.cpp` reads from a `QNetworkReply`: `url()`, the parsed
`Location` header (`header(LocationHeader).toUrl()`, possibly an invalid URL), the
raw `Location` header (`none` when `hasRawHeader("Location")` is false) and the
bytes `readAll()` returns. -/
structure QNetworkReply (U : Type) where
  url : U
  locationHeader : U
  rawLocation : Option String
  buffered : List Nat
  deriving DecidableEq, Repr

/-- The operations of Qt's `QUrl` that `Download.cpp` uses, over an arbitrary
carrier `U`: `QUrl(str, QUrl::TolerantMode)`, `toString()`, `isValid()`,
`scheme()`, `setPath(p, QUrl::TolerantMode)`, and the status line
`tr("Downloading %1").arg(truncateUrlHumanFriendly(url, 60))`. -/
structure QUrlOps (U : Type) where
  fromString : String → U
  toString : U → String
  isValid : U → Bool
  scheme : U → String
  setPath : U → String → U
  downloadingStatus : U → String

/-- The interface `Net::Sink` as a state machine over the sink's own state `σ`. -/
structure Sink (U σ : Type) where
  init : σ → U → State × σ
  write : σ → List Nat → State × σ
  finalize : σ → QNetworkReply U → State × σ
  abort : σ → σ
  hasLocalData : σ → Bool

/-- The members of a `Net::Download` object (`Task`, `NetAction`, `Download`),
the state of its sink, and the trace of what it has done so far.  `m_reply` is
true when the reply pointer is non-null. -/
structure Download (U σ : Type) where
  m_state : State
  m_status : String
  m_progress : Int
  m_progressTotal : Int
  m_failReason : String
  m_url : U
  m_reply : Bool
  m_options : Options
  m_last_progress_time : Int
  m_last_progress_bytes : Int
  m_details : String
  m_sink : σ
  trace : List (Event U)
  deriving DecidableEq, Repr

variable {U σ : Type}

/-! ## Task.cpp -/

namespace Task

/-- The statement `emit sig(...)`: the signal is appended to the trace. -/
def emit (e : Event U) (s : Download U σ) : Download U σ :=
  { s with trace := s.trace ++ [e] }

/-- `Task::setStatus`. -/
def setStatus (new_status : String) (s : Download U σ) : Download U σ :=
  if s.m_status ≠ new_status then
    emit (Event.status new_status) { s with m_status := new_status }
  else s

/-- `Task::setProgress`. -/
def setProgress (current total : Int) (s : Download U σ) : Download U σ :=
  emit (Event.progress current total) { s with m_progress := current, m_progressTotal := total }

/-- `Task::isRunning`. -/
def isRunning (s : Download U σ) : Bool :=
  decide (s.m_state = State.Running)

/-- `Task::getState`. -/
def getState (s : Download U σ) : State :=
  s.m_state

/-- `Task::start`, over the virtual `executeTask` of the concrete task. -/
def start (executeTask : Download U σ → Download U σ) (s : Download U σ) : Download U σ :=
  match s.m_state with
  | State.Inactive => executeTask (emit Event.started { s with m_state := State.Running })
  | State.AbortedByUser => executeTask (emit Event.started { s with m_state := State.Running })
  | State.Failed => executeTask (emit Event.started { s with m_state := State.Running })
  | State.Succeeded => executeTask (emit Event.started { s with m_state := State.Running })
  | State.Running => s

/-- `Task::emitFailed`. -/
def emitFailed (reason : String) (s : Download U σ) : Download U σ :=
  if !isRunning s then s
  else emit Event.finished
    (emit (Event.failed reason) { s with m_state := State.Failed, m_failReason := reason })

/-- `Task::emitAborted`. -/
def emitAborted (s : Download U σ) : Download U σ :=
  if !isRunning s then s
  else emit Event.finished
    (emit Event.aborted { s with m_state := State.AbortedByUser, m_failReason := "Aborted." })

/-- `Task::emitSucceeded`. -/
def emitSucceeded (s : Download U σ) : Download U σ :=
  if !isRunning s then s
  else emit Event.finished (emit Event.succeeded { s with m_state := State.Succeeded })

end Task

/-! ## Download.cpp -/

/-- `QString::startsWith`. -/
def startsWith (s pre : String) : Bool :=
  pre.toList.isPrefixOf s.toList

/-- `Download::executeTask`.  The default argument of `emitFailed()` is the empty
reason. -/
def executeTask (q : QUrlOps U) (sk : Sink U σ) (now : Int) (s : Download U σ) :
    Download U σ :=
  let s := Task.setStatus (q.downloadingStatus s.m_url) s
  if Task.getState s = State.AbortedByUser then Task.emitAborted s
  else
    let res := sk.init s.m_sink s.m_url
    let s := { s with m_state := res.1, m_sink := res.2,
                      trace := s.trace ++ [Event.sinkInit s.m_url] }
    match res.1 with
    | State.Succeeded => Task.emit Event.succeeded s
    | State.Running =>
      { s with m_last_progress_time := now, m_last_progress_bytes := 0, m_reply := true,
               trace := s.trace ++ [Event.networkGet s.m_url] }
    | State.Inactive => Task.emitFailed "" s
    | State.Failed => Task.emitFailed "" s
    | State.AbortedByUser => Task.emitAborted s

/-- `Download::downloadError`. -/
def downloadError (sk : Sink U σ) (error : NetworkError) (s : Download U σ) : Download U σ :=
  if error = NetworkError.OperationCanceledError then
    { s with m_state := State.AbortedByUser }
  else if s.m_options.AcceptLocalFiles && sk.hasLocalData s.m_sink then
    { s with m_state := State.Succeeded }
  else
    { s with m_state := State.Failed }

/-- The value of `redirectStr` in `Download::handleRedirect` after the two
workarounds for a `Location` header that Qt did not parse: `raw` is the header,
`replyUrl` is `m_reply->url()`. -/
def fixedLocation (q : QUrlOps U) (replyUrl : U) (raw : String) : String :=
  if startsWith raw "//" then
    q.scheme replyUrl ++ ":" ++ raw
  else if startsWith raw "/" then
    q.toString (q.setPath replyUrl raw)
  else raw

/-- Modelled from the spec: `NetAction::startAction` (declared in `NetAction.h`, which
is not among the sources) re-issues the whole flow with the updated URL under the
same task identity: it runs `executeTask` on the same object. -/
def startAction (q : QUrlOps U) (sk : Sink U σ) (now : Int) (s : Download U σ) :
    Download U σ :=
  executeTask q sk now s

/-- The tail of `Download::handleRedirect` once a valid `redirect` is at hand:
`m_url = QUrl(redirect.toString()); startAction(m_network); return true;`. -/
def followRedirect (q : QUrlOps U) (sk : Sink U σ) (now : Int) (redirect : U)
    (s : Download U σ) : Bool × Download U σ :=
  (true, startAction q sk now { s with m_url := q.fromString (q.toString redirect) })

/-- `Download::handleRedirect` for the reply `r`.  The first component is the value
returned. -/
def handleRedirect (q : QUrlOps U) (sk : Sink U σ) (now : Int) (r : QNetworkReply U)
    (s : Download U σ) : Bool × Download U σ :=
  if !q.isValid r.locationHeader then
    match r.rawLocation with
    | none => (false, s)
    | some raw =>
      if raw.length = 0 then (false, s)
      else
        let redirect := q.fromString (fixedLocation q r.url raw)
        if !q.isValid redirect then
          (false, downloadError sk NetworkError.ProtocolFailure s)
        else followRedirect q sk now redirect s
  else followRedirect q sk now r.locationHeader s

/-- The three places of `Download::downloadFinished` that give up the transfer:
`m_sink->abort(); m_reply.reset(); emit sig;`. -/
def abortSinkAndEmit (sk : Sink U σ) (e : Event U) (s : Download U σ) : Download U σ :=
  Task.emit e { s with m_sink := sk.abort s.m_sink, m_reply := false,
                       trace := s.trace ++ [Event.sinkAbort] }

/-- The body of `Download::downloadFinished` after the redirect check: the three
branches on a result recorded earlier, then the last write and `finalize`. -/
def finishTransfer (sk : Sink U σ) (r : QNetworkReply U) (s : Download U σ) : Download U σ :=
  if s.m_state = State.Succeeded then abortSinkAndEmit sk Event.succeeded s
  else if s.m_state = State.Failed then abortSinkAndEmit sk (Event.failed "") s
  else if s.m_state = State.AbortedByUser then abortSinkAndEmit sk Event.aborted s
  else
    let data := r.buffered
    let s :=
      if data.length ≠ 0 then
        let w := sk.write s.m_sink data
        { s with m_state := w.1, m_sink := w.2, trace := s.trace ++ [Event.sinkWrite data] }
      else s
    let f := sk.finalize s.m_sink r
    let s := { s with m_state := f.1, m_sink := f.2, trace := s.trace ++ [Event.sinkFinalize] }
    if s.m_state ≠ State.Succeeded then abortSinkAndEmit sk (Event.failed "") s
    else Task.emit Event.succeeded { s with m_reply := false }

/-- `Download::downloadFinished` for the reply `r`: redirects are handled first. -/
def downloadFinished (q : QUrlOps U) (sk : Sink U σ) (now : Int) (r : QNetworkReply U)
    (s : Download U σ) : Download U σ :=
  let hr := handleRedirect q sk now r s
  if hr.1 then hr.2 else finishTransfer sk r hr.2

/-- `Download::abort`; it always returns true. -/
def abort (s : Download U σ) : Download U σ :=
  if s.m_reply then Task.emit Event.replyAbort s
  else { s with m_state := State.AbortedByUser }

/-- What `Download::downloadProgress` uses from outside the two files: the number of
ticks of `m_clock` in one millisecond (for `std::chrono::duration_cast` to
milliseconds) and the formatter `humanReadableFileSize`. -/
structure ProgressOps where
  ticksPerMs : Int
  humanReadableFileSize : Int → String

/-- The value of `elapsed_ms` in `Download::downloadProgress`: the time since the
stored sample, cast to whole milliseconds (rounding toward zero). -/
def elapsedMs (p : ProgressOps) (now : Int) (s : Download U σ) : Int :=
  (now - s.m_last_progress_time).tdiv p.ticksPerMs

/-- The argument of `humanReadableFileSize` in `Download::downloadProgress`:
`bytes_recived_since / elapsed_ms * 1000` in 64-bit integer arithmetic (the division
is C++ integer division and comes first).  Values stay within the range of `qint64`. -/
def downloadRate (p : ProgressOps) (now bytesReceived : Int) (s : Download U σ) : Int :=
  (bytesReceived - s.m_last_progress_bytes).tdiv (elapsedMs p now s) * 1000

/-- `Download::downloadProgress`, handled when the clock reads `now`. -/
def downloadProgress (p : ProgressOps) (now bytesReceived bytesTotal : Int)
    (s : Download U σ) : Download U σ :=
  let s :=
    if elapsedMs p now s > 0 then
      { s with m_details := p.humanReadableFileSize (downloadRate p now bytesReceived s) ++ "/s" }
    else
      { s with m_details := "0 b/s" }
  Task.setProgress bytesReceived bytesTotal s

/-! ## Version.cpp -/

/-- What `Version.cpp` uses of `Version::Section` (declared in `Version.h`): the
constructor from a string and the operators `!=`, `<` and `>`. -/
structure SectionOps (S : Type) where
  construct : List Char → S
  ne : S → S → Bool
  lt : S → S → Bool
  gt : S → S → Bool

/-- A `Version` object: `m_string` as its sequence of characters, and `m_sections`. -/
structure Version (S : Type) where
  m_string : List Char
  m_sections : List S

namespace Version

variable {S : Type}

/-- The expression `(i >= m_sections.size()) ? Section("0") : m_sections.at(i)`. -/
def sectionAt (ops : SectionOps S) (v : Version S) (i : Nat) : S :=
  if i ≥ v.m_sections.length then ops.construct ['0'] else v.m_sections.getD i (ops.construct ['0'])

/-- The loop of `Version::operator<` with `n` iterations left, at index `i`. -/
def ltLoop (ops : SectionOps S) (a b : Version S) : Nat → Nat → Bool
  | 0, _ => false
  | n + 1, i =>
    if ops.ne (a.sectionAt ops i) (b.sectionAt ops i) then
      ops.lt (a.sectionAt ops i) (b.sectionAt ops i)
    else ltLoop ops a b n (i + 1)

/-- The loop of `Version::operator>` with `n` iterations left, at index `i`. -/
def gtLoop (ops : SectionOps S) (a b : Version S) : Nat → Nat → Bool
  | 0, _ => false
  | n + 1, i =>
    if ops.ne (a.sectionAt ops i) (b.sectionAt ops i) then
      ops.gt (a.sectionAt ops i) (b.sectionAt ops i)
    else gtLoop ops a b n (i + 1)

/-- The loop of `Version::operator==` with `n` iterations left, at index `i`. -/
def eqLoop (ops : SectionOps S) (a b : Version S) : Nat → Nat → Bool
  | 0, _ => true
  | n + 1, i =>
    if ops.ne (a.sectionAt ops i) (b.sectionAt ops i) then false
    else eqLoop ops a b n (i + 1)

/-- `Version::operator<`. -/
def lt (ops : SectionOps S) (a b : Version S) : Bool :=
  ltLoop ops a b (max a.m_sections.length b.m_sections.length) 0

/-- `Version::operator>`. -/
def gt (ops : SectionOps S) (a b : Version S) : Bool :=
  gtLoop ops a b (max a.m_sections.length b.m_sections.length) 0

/-- `Version::operator==`. -/
def eq (ops : SectionOps S) (a b : Version S) : Bool :=
  eqLoop ops a b (max a.m_sections.length b.m_sections.length) 0

/-- `Version::operator<=`. -/
def le (ops : SectionOps S) (a b : Version S) : Bool :=
  lt ops a b || eq ops a b

/-- `Version::operator>=`. -/
def ge (ops : SectionOps S) (a b : Version S) : Bool :=
  gt ops a b || eq ops a b

/-- `Version::operator!=`. -/
def ne (ops : SectionOps S) (a b : Version S) : Bool :=
  !eq ops a b

/-- The lambda `classChange` of `Version::parse`; `isDigit` is `QChar::isDigit` and a
character is null when it is U+0000. -/
def classChange (isDigit : Char → Bool) (lastChar currentChar : Char) : Bool :=
  !(lastChar == Char.ofNat 0) &&
    ((!isDigit lastChar && isDigit currentChar) || (isDigit lastChar && !isDigit currentChar))

/-- The variables of the loop of `Version::parse`. -/
structure ParseState (S : Type) where
  m_sections : List S
  currentSection : List Char

/-- One iteration of the loop of `Version::parse`, at index `i`. -/
def parseStep (construct : List Char → S) (isDigit : Char → Bool) (m_string : List Char)
    (st : ParseState S) (i : Nat) : ParseState S :=
  let current_char := m_string.getD i (Char.ofNat 0)
  let st :=
    if (decide (i > 0) && classChange isDigit (m_string.getD (i - 1) (Char.ofNat 0)) current_char)
        || current_char == '.' || current_char == '-' || current_char == '+' then
      { m_sections :=
          if !st.currentSection.isEmpty then st.m_sections ++ [construct st.currentSection]
          else st.m_sections,
        currentSection := [] }
    else st
  { st with currentSection := st.currentSection ++ [current_char] }

/-- The first `n` iterations of the loop of `Version::parse`. -/
def parseLoop (construct : List Char → S) (isDigit : Char → Bool) (m_string : List Char) (n : Nat) :
    ParseState S :=
  (List.range n).foldl (parseStep construct isDigit m_string) { m_sections := [], currentSection := [] }

/-- `Version::parse`: the value of `m_sections` it leaves, where `construct` is the
constructor `Section(QString)`. -/
def parse (construct : List Char → S) (isDigit : Char → Bool) (m_string : List Char) : List S :=
  let st := parseLoop construct isDigit m_string m_string.length
  if !st.currentSection.isEmpty then st.m_sections ++ [construct st.currentSection]
  else st.m_sections

/-- The constructor `Version::Version(const QString&)`. -/
def ofString (ops : SectionOps S) (isDigit : Char → Bool) (str : List Char) : Version S :=
  { m_string := str, m_sections := parse ops.construct isDigit str }

/-- The strings from which `Version::parse` builds the sections, in order: the
arguments of the constructor calls `Section(currentSection)`. -/
def sectionStrings (isDigit : Char → Bool) (m_string : List Char) : List (List Char) :=
  parse (fun x => x) isDigit m_string

/-- The separators of `Version::parse`. -/
def isSeparator (c : Char) : Bool :=
  c == '.' || c == '-' || c == '+'

end Version

/-! ## Observation of traces -/

/-- The events a handler added when it took the task from `before` to `after`. -/
def emitted (before after : Download U σ) : List (Event U) :=
  after.trace.drop before.trace.length

/-- The terminal signals `succeeded`, `failed`, `aborted`. -/
def Event.isTerminal : Event U → Bool
  | Event.succeeded => true
  | Event.failed _ => true
  | Event.aborted => true
  | _ => false

/-- The signals that end an execution attempt: the terminal signals and `finished`. -/
def Event.isLifecycle : Event U → Bool
  | Event.finished => true
  | e => e.isTerminal

/-- Calls on the transport: a request issued on the network manager. -/
def Event.isTransport : Event U → Bool
  | Event.networkGet _ => true
  | _ => false

/-- The reply carries no redirect at all: Qt parsed no valid `Location` header and
the raw header is absent or empty. -/
def noLocation (q : QUrlOps U) (r : QNetworkReply U) : Bool :=
  !q.isValid r.locationHeader &&
    (match r.rawLocation with
     | none => true
     | some raw => decide (raw.length = 0))

/-- The sink state on which `finalize` is called: the state after the last write
when bytes were left to read. -/
def sinkBeforeFinalize (sk : Sink U σ) (r : QNetworkReply U) (k : σ) : σ :=
  if r.buffered.length ≠ 0 then (sk.write k r.buffered).2 else k

/-- The last write of a completion, if bytes were left to read. -/
def lastWrite (r : QNetworkReply U) : List (Event U) :=
  if r.buffered.length ≠ 0 then [Event.sinkWrite r.buffered] else []

/-- The valid redirect location a completed reply carries, as `handleRedirect`
determines it: the `Location` header Qt parsed, or else the raw header after the
workarounds when that parses in tolerant mode. -/
def redirectTarget (q : QUrlOps U) (r : QNetworkReply U) : Option U :=
  if q.isValid r.locationHeader then some r.locationHeader
  else
    match r.rawLocation with
    | none => none
    | some raw =>
      if raw.length = 0 then none
      else if q.isValid (q.fromString (fixedLocation q r.url raw)) then
        some (q.fromString (fixedLocation q r.url raw))
      else none

/-- The URL the task records for a redirect to `target`: `QUrl(redirect.toString())`. -/
def recordedUrl (q : QUrlOps U) (target : U) : U :=
  q.fromString (q.toString target)

/-- One completion: the reply `c.2` finishes when the clock reads `c.1`. -/
def deliver (q : QUrlOps U) (sk : Sink U σ) (s : Download U σ)
    (c : Int × QNetworkReply U) : Download U σ :=
  downloadFinished q sk c.1 c.2 s

/-- Consecutive completions, in order. -/
def deliverAll (q : QUrlOps U) (sk : Sink U σ) (s : Download U σ)
    (cs : List (Int × QNetworkReply U)) : Download U σ :=
  cs.foldl (deliver q sk) s

/-- Every completion of the chain is a redirect hop after which the next request is
in flight: the reply carries a valid redirect location and the sink's `init`, asked
again for the new URL, answers `Running`. -/
def hopsProceed (q : QUrlOps U) (sk : Sink U σ) :
    Download U σ → List (Int × QNetworkReply U) → Prop
  | _, [] => True
  | s, c :: cs =>
    (∃ t, redirectTarget q c.2 = some t ∧ (sk.init s.m_sink (recordedUrl q t)).1 = State.Running) ∧
      hopsProceed q sk (deliver q sk s c) cs

/-- The URL recorded after a chain of redirect hops that started at `url`: the
target of the last hop, as recorded, or `url` itself for the empty chain. -/
def urlAfterHops (q : QUrlOps U) (url : U) (cs : List (Int × QNetworkReply U)) : U :=
  match cs.getLast? with
  | none => url
  | some c =>
    match redirectTarget q c.2 with
    | none => url
    | some t => recordedUrl q t

/-- The ways an execution attempt of a download reaches its end: `executeTask`
itself, or the completion of the reply `r`. -/
inductive Attempt (U : Type) where
  | execute
  | finish (r : QNetworkReply U)

/-- The handler that runs in an attempt. -/
def Attempt.run (q : QUrlOps U) (sk : Sink U σ) (now : Int) :
    Attempt U → Download U σ → Download U σ
  | Attempt.execute => executeTask q sk now
  | Attempt.finish r => downloadFinished q sk now r

/-- The attempt reaches a terminal outcome: `executeTask` finds a cache hit, or
`downloadFinished` follows no redirect. -/
def Attempt.reachesTerminal (q : QUrlOps U) (sk : Sink U σ) (now : Int) (s : Download U σ) :
    Attempt U → Prop
  | Attempt.execute =>
      s.m_state ≠ State.AbortedByUser ∧ (sk.init s.m_sink s.m_url).1 = State.Succeeded
  | Attempt.finish r => (handleRedirect q sk now r s).1 = false

/-- The lifecycle signals among `evs` are one terminal signal and then `finished`. -/
def terminalThenFinished (evs : List (Event U)) : Bool :=
  match evs.filter Event.isLifecycle with
  | [e, Event.finished] => e.isTerminal
  | _ => false

/-! ## Concrete environment used to evaluate the model -/

/-- The answers a scripted sink gives. -/
structure SinkScript where
  initAnswer : State
  writeAnswer : State
  finalizeAnswer : State
  localData : Bool
  aborted : Bool
  deriving DecidableEq, Repr

/-- A sink that answers every call from its script and remembers `abort`. -/
def scriptedSink : Sink String SinkScript where
  init := fun k _ => (k.initAnswer, k)
  write := fun k _ => (k.writeAnswer, k)
  finalize := fun k _ => (k.finalizeAnswer, k)
  abort := fun k => { k with aborted := true }
  hasLocalData := fun k => k.localData

/-- A small URL implementation over strings: a URL is valid when it contains
`:`, its scheme is what precedes the first `:`, and `setPath` replaces what
follows the host. -/
def plainUrl : QUrlOps String where
  fromString := fun t => t
  toString := fun u => u
  isValid := fun u => u.toList.contains ':'
  scheme := fun u => String.mk (u.toList.takeWhile (fun c => c != ':'))
  setPath := fun u p =>
    let rest := (u.toList.dropWhile (fun c => c != ':')).drop 3
    String.mk (u.toList.takeWhile (fun c => c != ':')) ++ "://" ++
      String.mk (rest.takeWhile (fun c => c != '/')) ++ p
  downloadingStatus := fun u => "Downloading " ++ u

/-- A script whose sink starts the transfer, accepts every chunk and finalizes. -/
def goodScript : SinkScript :=
  { initAnswer := State.Running, writeAnswer := State.Running,
    finalizeAnswer := State.Succeeded, localData := false, aborted := false }

/-- A freshly constructed download of `http://a/x` with a scripted sink. -/
def freshDownload (k : SinkScript) (o : Options) : Download String SinkScript where
  m_state := State.Inactive
  m_status := ""
  m_progress := 0
  m_progressTotal := 0
  m_failReason := ""
  m_url := "http://a/x"
  m_reply := false
  m_options := o
  m_last_progress_time := 0
  m_last_progress_bytes := 0
  m_details := ""
  m_sink := k
  trace := []

/-- The download of `freshDownload` after `start()` at time 0. -/
def startedDownload (k : SinkScript) (o : Options) : Download String SinkScript :=
  Task.start (executeTask plainUrl scriptedSink 0) (freshDownload k o)

/-- A started download whose sink reports a cache hit, as `start()` hands it to
`executeTask`. -/
def cacheHitDownload : Download String SinkScript :=
  { freshDownload { goodScript with initAnswer := State.Succeeded } ⟨false, false⟩
      with m_state := State.Running }

/-- A completed reply for `http://a/x` without a `Location` header and with three
bytes left to read. -/
def plainReply : QNetworkReply String :=
  { url := "http://a/x", locationHeader := "", rawLocation := none, buffered := [1, 2, 3] }

/-- A completed reply whose `Location` header Qt parsed as the URL `target`. -/
def redirectReply (target : String) : QNetworkReply String :=
  { url := "http://a/x", locationHeader := target, rawLocation := some target, buffered := [] }

/-- A completed reply whose `Location` header Qt did not parse; `raw` is the header. -/
def rawRedirectReply (raw : String) : QNetworkReply String :=
  { url := "http://a/x", locationHeader := "", rawLocation := some raw, buffered := [] }


/-- A clock that ticks in milliseconds and a formatter that prints the number of
bytes. -/
def plainProgress : ProgressOps :=
  { ticksPerMs := 1, humanReadableFileSize := fun n => Nat.repr n.toNat ++ " b" }

/-- Sections as plain numbers, compared as numbers; the string `0` and every string
that is not listed is the number 0. -/
def numberSections : SectionOps Nat where
  construct := fun x => if x = ['1'] then 1 else if x = ['2'] then 2 else 0
  ne := fun a b => decide (a ≠ b)
  lt := fun a b => decide (a < b)
  gt := fun a b => decide (a > b)

/-! ## Basic facts about the handlers -/

theorem emitted_of_trace {s t : Download U σ} {evs : List (Event U)}
    (h : t.trace = s.trace ++ evs) : emitted s t = evs := by
  simp [emitted, h]

theorem setStatus_trace (text : String) (s : Download U σ) :
    (Task.setStatus text s).trace
      = s.trace ++ (if s.m_status ≠ text then [Event.status text] else []) := by
  unfold Task.setStatus
  split <;> simp [Task.emit]

@[simp] theorem setStatus_m_state (text : String) (s : Download U σ) :
    (Task.setStatus text s).m_state = s.m_state := by
  unfold Task.setStatus
  split <;> simp [Task.emit]

@[simp] theorem setStatus_m_url (text : String) (s : Download U σ) :
    (Task.setStatus text s).m_url = s.m_url := by
  unfold Task.setStatus
  split <;> simp [Task.emit]

@[simp] theorem setStatus_m_sink (text : String) (s : Download U σ) :
    (Task.setStatus text s).m_sink = s.m_sink := by
  unfold Task.setStatus
  split <;> simp [Task.emit]

@[simp] theorem setStatus_m_reply (text : String) (s : Download U σ) :
    (Task.setStatus text s).m_reply = s.m_reply := by
  unfold Task.setStatus
  split <;> simp [Task.emit]

@[simp] theorem setStatus_m_options (text : String) (s : Download U σ) :
    (Task.setStatus text s).m_options = s.m_options := by
  unfold Task.setStatus
  split <;> simp [Task.emit]

@[simp] theorem downloadError_trace (sk : Sink U σ) (e : NetworkError) (s : Download U σ) :
    (downloadError sk e s).trace = s.trace := by
  unfold downloadError
  split_ifs <;> rfl

@[simp] theorem downloadError_m_sink (sk : Sink U σ) (e : NetworkError) (s : Download U σ) :
    (downloadError sk e s).m_sink = s.m_sink := by
  unfold downloadError
  split_ifs <;> rfl

@[simp] theorem downloadError_m_url (sk : Sink U σ) (e : NetworkError) (s : Download U σ) :
    (downloadError sk e s).m_url = s.m_url := by
  unfold downloadError
  split_ifs <;> rfl

theorem downloadError_m_state_ne_running (sk : Sink U σ) (e : NetworkError)
    (s : Download U σ) :
    (downloadError sk e s).m_state = State.Succeeded ∨
    (downloadError sk e s).m_state = State.Failed ∨
    (downloadError sk e s).m_state = State.AbortedByUser := by
  unfold downloadError
  split_ifs <;> simp

/-- A reply without a `Location` header is never a redirect, and the check leaves
the task untouched. -/
theorem handleRedirect_noLocation (q : QUrlOps U) (sk : Sink U σ) (now : Int)
    (r : QNetworkReply U) (s : Download U σ) (h : noLocation q r = true) :
    handleRedirect q sk now r s = (false, s) := by
  unfold noLocation at h
  unfold handleRedirect
  cases hr : r.rawLocation <;> simp_all

/-- When no redirect is followed the check either leaves the task untouched or has
routed a malformed `Location` through `downloadError`. -/
theorem handleRedirect_not_followed (q : QUrlOps U) (sk : Sink U σ) (now : Int)
    (r : QNetworkReply U) (s : Download U σ)
    (h : (handleRedirect q sk now r s).1 = false) :
    (handleRedirect q sk now r s).2 = s ∨
    (handleRedirect q sk now r s).2 = downloadError sk NetworkError.ProtocolFailure s := by
  unfold handleRedirect at h ⊢
  unfold followRedirect at h ⊢
  cases hr : r.rawLocation <;> simp only [hr] at h ⊢ <;> split_ifs at h ⊢ <;> simp_all

theorem downloadFinished_noLocation (q : QUrlOps U) (sk : Sink U σ) (now : Int)
    (r : QNetworkReply U) (s : Download U σ) (h : noLocation q r = true) :
    downloadFinished q sk now r s = finishTransfer sk r s := by
  simp [downloadFinished, handleRedirect_noLocation q sk now r s h]

/-- The completion of a transfer with no result recorded earlier, spelled out. -/
theorem finishTransfer_unrecorded (sk : Sink U σ) (r : QNetworkReply U) (s : Download U σ)
    (h1 : s.m_state ≠ State.Succeeded) (h2 : s.m_state ≠ State.Failed)
    (h3 : s.m_state ≠ State.AbortedByUser) :
    finishTransfer sk r s =
      if (sk.finalize (sinkBeforeFinalize sk r s.m_sink) r).1 = State.Succeeded then
        { s with m_state := State.Succeeded,
                 m_sink := (sk.finalize (sinkBeforeFinalize sk r s.m_sink) r).2,
                 m_reply := false,
                 trace := s.trace ++ (lastWrite r ++ [Event.sinkFinalize, Event.succeeded]) }
      else
        { s with m_state := (sk.finalize (sinkBeforeFinalize sk r s.m_sink) r).1,
                 m_sink := sk.abort (sk.finalize (sinkBeforeFinalize sk r s.m_sink) r).2,
                 m_reply := false,
                 trace := s.trace ++
                   (lastWrite r ++ [Event.sinkFinalize, Event.sinkAbort, Event.failed ""]) } := by
  unfold finishTransfer sinkBeforeFinalize lastWrite
  by_cases hb : r.buffered = []
  · by_cases hf : (sk.finalize s.m_sink r).1 = State.Succeeded <;>
      simp [h1, h2, h3, hb, hf, abortSinkAndEmit, Task.emit]
  · by_cases hf : (sk.finalize (sk.write s.m_sink r.buffered).2 r).1 = State.Succeeded <;>
      simp [h1, h2, h3, hb, hf, abortSinkAndEmit, Task.emit]

/-- The completion of a transfer emits exactly one terminal signal and never
`finished`. -/
theorem finishTransfer_lifecycle (sk : Sink U σ) (r : QNetworkReply U) (s : Download U σ) :
    ∃ e : Event U, e.isTerminal = true ∧
      ((finishTransfer sk r s).trace.drop s.trace.length).filter Event.isLifecycle = [e] := by
  by_cases h1 : s.m_state = State.Succeeded
  · exact ⟨Event.succeeded, rfl, by
      simp [finishTransfer, h1, abortSinkAndEmit, Task.emit, Event.isLifecycle, Event.isTerminal]⟩
  by_cases h2 : s.m_state = State.Failed
  · exact ⟨Event.failed "", rfl, by
      simp [finishTransfer, h2, abortSinkAndEmit, Task.emit, Event.isLifecycle, Event.isTerminal]⟩
  by_cases h3 : s.m_state = State.AbortedByUser
  · exact ⟨Event.aborted, rfl, by
      simp [finishTransfer, h3, abortSinkAndEmit, Task.emit, Event.isLifecycle, Event.isTerminal]⟩
  rw [finishTransfer_unrecorded sk r s h1 h2 h3]
  by_cases hb : r.buffered = [] <;>
  by_cases hf : (sk.finalize (sinkBeforeFinalize sk r s.m_sink) r).1 = State.Succeeded
  · exact ⟨Event.succeeded, rfl, by
      simp [hf, hb, lastWrite, Event.isLifecycle, Event.isTerminal]⟩
  · exact ⟨Event.failed "", rfl, by
      simp [hf, hb, lastWrite, Event.isLifecycle, Event.isTerminal]⟩
  · exact ⟨Event.succeeded, rfl, by
      simp [hf, hb, lastWrite, Event.isLifecycle, Event.isTerminal]⟩
  · exact ⟨Event.failed "", rfl, by
      simp [hf, hb, lastWrite, Event.isLifecycle, Event.isTerminal]⟩

/-! ## Task::start -/

/-- C2: `Task::start()` called while the state is `Running` returns the task as it
was (state, status, progress counters and trace unchanged, so `started` is not
emitted and `executeTask` is not run, whatever `executeTask` is); called in any other
state it sets the state to `Running`, emits `started`, and then runs `executeTask`
once on the result. -/
theorem start_runs_executeTask_unless_running (exec : Download U σ → Download U σ)
    (s : Download U σ) :
    Task.start exec s =
      if s.m_state = State.Running then s
      else exec { s with m_state := State.Running, trace := s.trace ++ [Event.started] } := by
  unfold Task.start
  cases h : s.m_state <;> simp [Task.emit]

/-! ## Download::executeTask -/

/-- C3: when the sink's `init` answers `Succeeded`, `executeTask` emits `succeeded`
right after the call of `init`, issues no request on the network manager, and leaves
the reply pointer as it was. -/
theorem executeTask_cache_hit (q : QUrlOps U) (sk : Sink U σ) (now : Int) (s : Download U σ)
    (hs : s.m_state ≠ State.AbortedByUser)
    (hinit : (sk.init s.m_sink s.m_url).1 = State.Succeeded) :
    emitted s (executeTask q sk now s)
        = emitted s (Task.setStatus (q.downloadingStatus s.m_url) s)
            ++ [Event.sinkInit s.m_url, Event.succeeded] ∧
      (emitted s (executeTask q sk now s)).filter Event.isTransport = [] ∧
      (executeTask q sk now s).m_reply = s.m_reply ∧
      (executeTask q sk now s).m_state = State.Succeeded := by
  have ht : (executeTask q sk now s).trace
      = s.trace ++ ((if s.m_status ≠ q.downloadingStatus s.m_url then
          [Event.status (q.downloadingStatus s.m_url)] else [])
            ++ [Event.sinkInit s.m_url, Event.succeeded]) := by
    unfold executeTask
    simp [Task.getState, hs, hinit, Task.emit, setStatus_trace]
  have hst := emitted_of_trace (setStatus_trace (q.downloadingStatus s.m_url) s)
  refine ⟨?_, ?_, ?_, ?_⟩
  · rw [emitted_of_trace ht, hst]
  · rw [emitted_of_trace ht]
    split_ifs <;> simp [Event.isTransport]
  · unfold executeTask
    simp [Task.getState, hs, hinit, Task.emit]
  · unfold executeTask
    simp [Task.getState, hs, hinit, Task.emit]

/-- Witness of C3: a started download whose sink reports a cache hit. -/
theorem executeTask_cache_hit_witness :
    cacheHitDownload.m_state ≠ State.AbortedByUser ∧
    (scriptedSink.init cacheHitDownload.m_sink cacheHitDownload.m_url).1 = State.Succeeded ∧
    emitted cacheHitDownload (executeTask plainUrl scriptedSink 0 cacheHitDownload)
      = emitted cacheHitDownload
          (Task.setStatus (plainUrl.downloadingStatus cacheHitDownload.m_url) cacheHitDownload)
          ++ [Event.sinkInit cacheHitDownload.m_url, Event.succeeded] :=
  ⟨by decide, by decide,
   (executeTask_cache_hit plainUrl scriptedSink 0 cacheHitDownload (by decide) (by decide)).1⟩

/-- C4 at a failing input: a download is started and its sink's `init` answers
`Failed` (first part) or `AbortedByUser` (second part).  `executeTask` stores the
answer in `m_state` and then calls `emitFailed()` / `emitAborted()`, whose guard
`!isRunning()` now holds: the trace ends with the call of `init`, and neither
`failed`, `aborted` nor `finished` is emitted.  No request is issued. -/
theorem executeTask_init_failure_emits_nothing :
    (startedDownload { goodScript with initAnswer := State.Failed } ⟨false, false⟩).trace
        = [Event.started, Event.status "Downloading http://a/x", Event.sinkInit "http://a/x"] ∧
    (startedDownload { goodScript with initAnswer := State.AbortedByUser } ⟨false, false⟩).trace
        = [Event.started, Event.status "Downloading http://a/x", Event.sinkInit "http://a/x"] := by
  decide

/-- C5 at a failing input: `abort()` on a fresh download (no reply) marks it
`AbortedByUser`.  A following `start()` overwrites the mark with `Running`, so
`executeTask` calls the sink's `init` and issues the request, and `aborted` is never
emitted (first part).  When `executeTask` is entered with the mark still in place, it
calls `emitAborted()`, whose guard `!isRunning()` holds: the status is set, nothing
touches the network, and no signal `aborted` is emitted (second part). -/
theorem abort_before_start_emits_no_aborted :
    (abort (freshDownload goodScript ⟨false, false⟩)).m_state = State.AbortedByUser ∧
    (Task.start (executeTask plainUrl scriptedSink 0)
        (abort (freshDownload goodScript ⟨false, false⟩))).trace
      = [Event.started, Event.status "Downloading http://a/x", Event.sinkInit "http://a/x",
          Event.networkGet "http://a/x"] ∧
    (executeTask plainUrl scriptedSink 0 (abort (freshDownload goodScript ⟨false, false⟩))).trace
      = [Event.status "Downloading http://a/x"] := by
  decide

/-! ## Terminal outcomes -/

/-- In every execution attempt that reaches a terminal outcome (a cache hit in
`executeTask`, or `downloadFinished` when no redirect is followed) the lifecycle
signals the handler emits are exactly one of `succeeded`, `failed`, `aborted`, and
nothing else: the handler emits the bare signal and no `finished`. -/
theorem attempt_emits_one_terminal_signal (q : QUrlOps U) (sk : Sink U σ) (now : Int)
    (s : Download U σ) (a : Attempt U) (h : a.reachesTerminal q sk now s) :
    ∃ e : Event U, e.isTerminal = true ∧
      (emitted s (a.run q sk now s)).filter Event.isLifecycle = [e] := by
  cases a with
  | execute =>
    obtain ⟨hs, hinit⟩ := h
    refine ⟨Event.succeeded, rfl, ?_⟩
    have ht : (executeTask q sk now s).trace
        = s.trace ++ ((if s.m_status ≠ q.downloadingStatus s.m_url then
            [Event.status (q.downloadingStatus s.m_url)] else [])
              ++ [Event.sinkInit s.m_url, Event.succeeded]) := by
      unfold executeTask
      simp [Task.getState, hs, hinit, Task.emit, setStatus_trace]
    show (emitted s (executeTask q sk now s)).filter Event.isLifecycle = _
    rw [emitted_of_trace ht]
    split_ifs <;> simp [Event.isLifecycle, Event.isTerminal]
  | finish r =>
    have h0 : (handleRedirect q sk now r s).1 = false := h
    have htr : (handleRedirect q sk now r s).2.trace = s.trace := by
      rcases handleRedirect_not_followed q sk now r s h0 with h1 | h1 <;> simp [h1]
    obtain ⟨e, he, hl⟩ := finishTransfer_lifecycle sk r (handleRedirect q sk now r s).2
    refine ⟨e, he, ?_⟩
    show (emitted s (downloadFinished q sk now r s)).filter Event.isLifecycle = _
    unfold emitted downloadFinished
    simp only [h0, Bool.false_eq_true, if_false]
    rw [← htr]
    exact hl

/-- C1 at two failing inputs: a started download whose reply completes without a
redirect emits `succeeded` after the last write and `finalize`, and a started download
with a cache hit emits `succeeded` from `executeTask`.  Both attempts reach a terminal
outcome and emit exactly one terminal signal, but it is the bare signal: no `finished`
follows it. -/
theorem terminal_signal_without_finished :
    (Attempt.reachesTerminal plainUrl scriptedSink 1
        (startedDownload goodScript ⟨false, false⟩) (Attempt.finish plainReply) ∧
      emitted (startedDownload goodScript ⟨false, false⟩)
          (Attempt.run plainUrl scriptedSink 1 (Attempt.finish plainReply)
            (startedDownload goodScript ⟨false, false⟩))
        = [Event.sinkWrite [1, 2, 3], Event.sinkFinalize, Event.succeeded] ∧
      terminalThenFinished
        (emitted (startedDownload goodScript ⟨false, false⟩)
          (Attempt.run plainUrl scriptedSink 1 (Attempt.finish plainReply)
            (startedDownload goodScript ⟨false, false⟩))) = false) ∧
    (Attempt.reachesTerminal plainUrl scriptedSink 0 cacheHitDownload Attempt.execute ∧
      emitted cacheHitDownload (Attempt.run plainUrl scriptedSink 0 Attempt.execute cacheHitDownload)
        = [Event.status "Downloading http://a/x", Event.sinkInit "http://a/x", Event.succeeded] ∧
      terminalThenFinished
        (emitted cacheHitDownload
          (Attempt.run plainUrl scriptedSink 0 Attempt.execute cacheHitDownload)) = false) := by
  refine ⟨⟨?_, ?_, ?_⟩, ⟨?_, ?_⟩, ?_, ?_⟩
  · show (handleRedirect _ _ _ _ _).1 = false
    decide
  · decide
  · decide
  · decide
  · decide
  · decide
  · decide

/-- C6: whatever the options and whatever `hasLocalData` answers, an
operation-canceled error sets `m_state` to `AbortedByUser`, and the completion of a
reply without redirect that follows aborts the sink, resets the reply and emits
`aborted`: these are the only actions, and the state stays `AbortedByUser`. -/
theorem cancel_then_completion_aborts (q : QUrlOps U) (sk : Sink U σ) (now : Int)
    (r : QNetworkReply U) (s : Download U σ) (hno : noLocation q r = true) :
    (downloadError sk NetworkError.OperationCanceledError s).m_state = State.AbortedByUser ∧
    (downloadFinished q sk now r
        (downloadError sk NetworkError.OperationCanceledError s)).m_state
      = State.AbortedByUser ∧
    emitted s (downloadFinished q sk now r
        (downloadError sk NetworkError.OperationCanceledError s))
      = [Event.sinkAbort, Event.aborted] ∧
    (downloadFinished q sk now r
        (downloadError sk NetworkError.OperationCanceledError s)).m_sink
      = sk.abort s.m_sink ∧
    (downloadFinished q sk now r
        (downloadError sk NetworkError.OperationCanceledError s)).m_reply = false := by
  rw [downloadFinished_noLocation q sk now r _ hno]
  simp [downloadError, finishTransfer, abortSinkAndEmit, Task.emit, emitted]

/-- Witness of C6: cancellation of a started download that accepts local files and has
local data. -/
theorem cancel_then_completion_aborts_witness :
    noLocation plainUrl plainReply = true ∧
    emitted (startedDownload { goodScript with localData := true } ⟨true, false⟩)
      (downloadFinished plainUrl scriptedSink 1 plainReply
        (downloadError scriptedSink NetworkError.OperationCanceledError
          (startedDownload { goodScript with localData := true } ⟨true, false⟩)))
      = [Event.sinkAbort, Event.aborted] :=
  ⟨by decide,
   (cancel_then_completion_aborts plainUrl scriptedSink 1 plainReply
      (startedDownload { goodScript with localData := true } ⟨true, false⟩) (by decide)).2.2.1⟩

/-- C7: with `AcceptLocalFiles` set and `hasLocalData()` true, a transport error other
than cancellation followed by the completion of a reply without redirect ends in
`Succeeded`; the completion aborts the sink, resets the reply and emits `succeeded`,
and does nothing else (no `write`, no `finalize`). -/
theorem error_with_local_data_succeeds (q : QUrlOps U) (sk : Sink U σ) (now : Int)
    (r : QNetworkReply U) (s : Download U σ) (error : NetworkError)
    (herr : error ≠ NetworkError.OperationCanceledError)
    (hopt : s.m_options.AcceptLocalFiles = true)
    (hloc : sk.hasLocalData s.m_sink = true)
    (hno : noLocation q r = true) :
    (downloadFinished q sk now r (downloadError sk error s)).m_state = State.Succeeded ∧
    emitted s (downloadFinished q sk now r (downloadError sk error s))
      = [Event.sinkAbort, Event.succeeded] ∧
    (downloadFinished q sk now r (downloadError sk error s)).m_sink = sk.abort s.m_sink ∧
    (downloadFinished q sk now r (downloadError sk error s)).m_reply = false := by
  rw [downloadFinished_noLocation q sk now r _ hno]
  simp [downloadError, herr, hopt, hloc, finishTransfer, abortSinkAndEmit, Task.emit, emitted]

/-- Witness of C7: a timeout-like error on a started download with local data. -/
theorem error_with_local_data_succeeds_witness :
    NetworkError.Other 4 ≠ NetworkError.OperationCanceledError ∧
    (startedDownload { goodScript with localData := true } ⟨true, false⟩).m_options.AcceptLocalFiles
      = true ∧
    scriptedSink.hasLocalData
      (startedDownload { goodScript with localData := true } ⟨true, false⟩).m_sink = true ∧
    noLocation plainUrl plainReply = true ∧
    emitted (startedDownload { goodScript with localData := true } ⟨true, false⟩)
      (downloadFinished plainUrl scriptedSink 1 plainReply
        (downloadError scriptedSink (NetworkError.Other 4)
          (startedDownload { goodScript with localData := true } ⟨true, false⟩)))
      = [Event.sinkAbort, Event.succeeded] :=
  ⟨by decide, by decide, by decide, by decide,
   (error_with_local_data_succeeds plainUrl scriptedSink 1 plainReply
      (startedDownload { goodScript with localData := true } ⟨true, false⟩)
      (NetworkError.Other 4) (by decide) (by decide) (by decide) (by decide)).2.1⟩

/-- C8: on the completion of a reply without redirect, with no result recorded
earlier, the outcome is decided by the answer of `finalize` (called after the last
write, if bytes were left): if it is not `Succeeded` the sink is aborted and `failed`
is emitted, whatever the last write answered; if it is `Succeeded` then `succeeded`
is emitted and the sink is not aborted. -/
theorem finalize_decides_outcome (q : QUrlOps U) (sk : Sink U σ) (now : Int)
    (r : QNetworkReply U) (s : Download U σ) (hno : noLocation q r = true)
    (h1 : s.m_state ≠ State.Succeeded) (h2 : s.m_state ≠ State.Failed)
    (h3 : s.m_state ≠ State.AbortedByUser) :
    ((sk.finalize (sinkBeforeFinalize sk r s.m_sink) r).1 ≠ State.Succeeded →
      emitted s (downloadFinished q sk now r s)
        = lastWrite r ++ [Event.sinkFinalize, Event.sinkAbort, Event.failed ""] ∧
      (downloadFinished q sk now r s).m_sink
        = sk.abort (sk.finalize (sinkBeforeFinalize sk r s.m_sink) r).2) ∧
    ((sk.finalize (sinkBeforeFinalize sk r s.m_sink) r).1 = State.Succeeded →
      emitted s (downloadFinished q sk now r s)
        = lastWrite r ++ [Event.sinkFinalize, Event.succeeded] ∧
      (downloadFinished q sk now r s).m_sink
        = (sk.finalize (sinkBeforeFinalize sk r s.m_sink) r).2 ∧
      (downloadFinished q sk now r s).m_state = State.Succeeded) := by
  rw [downloadFinished_noLocation q sk now r _ hno, finishTransfer_unrecorded sk r s h1 h2 h3]
  constructor
  · intro hf
    simp [hf, emitted]
  · intro hf
    simp [hf, emitted]

/-- Witness of C8: the transport of a started download completes and every write was
accepted; `finalize` answers `Failed` (a checksum mismatch) in the first part and
`Succeeded` in the second. -/
theorem finalize_decides_outcome_witness :
    noLocation plainUrl plainReply = true ∧
    emitted (startedDownload { goodScript with finalizeAnswer := State.Failed } ⟨false, false⟩)
      (downloadFinished plainUrl scriptedSink 1 plainReply
        (startedDownload { goodScript with finalizeAnswer := State.Failed } ⟨false, false⟩))
      = lastWrite plainReply ++ [Event.sinkFinalize, Event.sinkAbort, Event.failed ""] ∧
    emitted (startedDownload goodScript ⟨false, false⟩)
      (downloadFinished plainUrl scriptedSink 1 plainReply
        (startedDownload goodScript ⟨false, false⟩))
      = lastWrite plainReply ++ [Event.sinkFinalize, Event.succeeded] :=
  ⟨by decide,
   ((finalize_decides_outcome plainUrl scriptedSink 1 plainReply
      (startedDownload { goodScript with finalizeAnswer := State.Failed } ⟨false, false⟩)
      (by decide) (by decide) (by decide) (by decide)).1 (by decide)).1,
   ((finalize_decides_outcome plainUrl scriptedSink 1 plainReply
      (startedDownload goodScript ⟨false, false⟩)
      (by decide) (by decide) (by decide) (by decide)).2 (by decide)).1⟩

/-! ## Redirects -/

theorem handleRedirect_of_target (q : QUrlOps U) (sk : Sink U σ) (now : Int)
    (r : QNetworkReply U) (s : Download U σ) (t : U) (h : redirectTarget q r = some t) :
    handleRedirect q sk now r s = followRedirect q sk now t s := by
  unfold redirectTarget at h
  unfold handleRedirect
  by_cases hv : q.isValid r.locationHeader = true
  · simp [hv] at h ⊢
    rw [h]
  · simp only [hv] at h
    cases hr : r.rawLocation with
    | none => simp [hr] at h
    | some raw =>
      simp only [hr] at h
      by_cases hl : raw.length = 0
      · simp [hl] at h
      · by_cases hv2 : q.isValid (q.fromString (fixedLocation q r.url raw)) = true
        · simp [hl, hv2] at h
          subst h
          simp [hv, hl, hv2]
        · simp [hl, hv2] at h

theorem handleRedirect_of_no_target (q : QUrlOps U) (sk : Sink U σ) (now : Int)
    (r : QNetworkReply U) (s : Download U σ) (h : redirectTarget q r = none) :
    (handleRedirect q sk now r s).1 = false := by
  unfold redirectTarget at h
  unfold handleRedirect
  by_cases hv : q.isValid r.locationHeader = true
  · simp [hv] at h
  · simp only [hv] at h
    cases hr : r.rawLocation with
    | none => simp [hv]
    | some raw =>
      simp only [hr] at h
      by_cases hl : raw.length = 0
      · simp [hv, hl]
      · by_cases hv2 : q.isValid (q.fromString (fixedLocation q r.url raw)) = true
        · simp [hl, hv2] at h
        · simp [hv, hl, hv2]

/-- A redirect hop whose re-execution starts the next request: what it does. -/
theorem deliver_hop (q : QUrlOps U) (sk : Sink U σ) (s : Download U σ)
    (c : Int × QNetworkReply U) (t : U)
    (hs : s.m_state ≠ State.AbortedByUser)
    (ht : redirectTarget q c.2 = some t)
    (hinit : (sk.init s.m_sink (recordedUrl q t)).1 = State.Running) :
    (deliver q sk s c).m_state = State.Running ∧
    (deliver q sk s c).m_url = recordedUrl q t ∧
    (deliver q sk s c).trace
      = s.trace ++ ((if s.m_status ≠ q.downloadingStatus (recordedUrl q t) then
          [Event.status (q.downloadingStatus (recordedUrl q t))] else [])
            ++ [Event.sinkInit (recordedUrl q t), Event.networkGet (recordedUrl q t)]) := by
  unfold deliver downloadFinished
  rw [handleRedirect_of_target q sk c.1 c.2 s t ht]
  unfold recordedUrl at hinit ⊢
  simp [followRedirect, startAction, executeTask, Task.getState, hs, hinit, setStatus_trace]

theorem redirectTarget_isValid (q : QUrlOps U) (r : QNetworkReply U) (t : U)
    (h : redirectTarget q r = some t) : q.isValid t = true := by
  unfold redirectTarget at h
  by_cases hv : q.isValid r.locationHeader = true
  · simp [hv] at h
    rw [← h]
    exact hv
  · simp only [hv] at h
    cases hr : r.rawLocation with
    | none => simp [hr] at h
    | some raw =>
      simp only [hr] at h
      by_cases hl : raw.length = 0
      · simp [hl] at h
      · by_cases hv2 : q.isValid (q.fromString (fixedLocation q r.url raw)) = true
        · simp [hl, hv2] at h
          rw [← h]
          exact hv2
        · simp [hl, hv2] at h

theorem hopsProceed_target (q : QUrlOps U) (sk : Sink U σ) (s : Download U σ)
    (cs : List (Int × QNetworkReply U)) (hp : hopsProceed q sk s cs) :
    ∀ c ∈ cs, ∃ t, redirectTarget q c.2 = some t := by
  induction cs generalizing s with
  | nil => intro c hc; simp at hc
  | cons d ds ih =>
    obtain ⟨⟨t, ht, _⟩, hrest⟩ := hp
    intro c hc
    rcases List.mem_cons.mp hc with h | h
    · exact ⟨t, h ▸ ht⟩
    · exact ih _ hrest c h

theorem urlAfterHops_of_last (q : QUrlOps U) (u : U) (cs : List (Int × QNetworkReply U))
    (c : Int × QNetworkReply U) (t : U) (hl : cs.getLast? = some c)
    (ht : redirectTarget q c.2 = some t) : urlAfterHops q u cs = recordedUrl q t := by
  simp [urlAfterHops, hl, ht]

/-- Redirect hops emit no lifecycle signal, keep the task out of `AbortedByUser`,
and leave the last target as the recorded URL. -/
theorem deliverAll_hops (q : QUrlOps U) (sk : Sink U σ) (s : Download U σ)
    (cs : List (Int × QNetworkReply U))
    (hs : s.m_state ≠ State.AbortedByUser)
    (hp : hopsProceed q sk s cs) :
    (deliverAll q sk s cs).m_state ≠ State.AbortedByUser ∧
    (deliverAll q sk s cs).m_url = urlAfterHops q s.m_url cs ∧
    ∃ evs, (deliverAll q sk s cs).trace = s.trace ++ evs ∧
      evs.filter Event.isLifecycle = [] := by
  induction cs generalizing s with
  | nil => exact ⟨hs, rfl, [], by simp [deliverAll], rfl⟩
  | cons c cs ih =>
    have hall := hopsProceed_target q sk s (c :: cs) hp
    obtain ⟨⟨t, ht, hinit⟩, hrest⟩ := hp
    obtain ⟨h1, h2, h3⟩ := deliver_hop q sk s c t hs ht hinit
    have hs1 : (deliver q sk s c).m_state ≠ State.AbortedByUser := by simp [h1]
    obtain ⟨i1, i2, evs, i3, i4⟩ := ih (deliver q sk s c) hs1 hrest
    refine ⟨i1, ?_, ?_⟩
    · show (deliverAll q sk (deliver q sk s c) cs).m_url = _
      rw [i2, h2]
      cases cs with
      | nil => simp [urlAfterHops, ht]
      | cons d ds =>
        cases hl : (d :: ds).getLast? with
        | none => simp at hl
        | some l =>
          have hmem : l ∈ c :: d :: ds :=
            List.mem_cons_of_mem _ (List.mem_of_getLast?_eq_some hl)
          obtain ⟨tl, htl⟩ := hall l hmem
          rw [urlAfterHops_of_last q _ (d :: ds) l tl hl htl,
            urlAfterHops_of_last q _ (c :: d :: ds) l tl (by simpa using hl) htl]
    · refine ⟨((if s.m_status ≠ q.downloadingStatus (recordedUrl q t) then
          [Event.status (q.downloadingStatus (recordedUrl q t))] else [])
            ++ [Event.sinkInit (recordedUrl q t), Event.networkGet (recordedUrl q t)]) ++ evs,
          ?_, ?_⟩
      · show (deliverAll q sk (deliver q sk s c) cs).trace = _
        rw [i3, h3, List.append_assoc]
      · rw [List.filter_append, i4]
        split_ifs <;> simp [Event.isLifecycle, Event.isTerminal]

theorem finishTransfer_m_url (sk : Sink U σ) (r : QNetworkReply U) (s : Download U σ) :
    (finishTransfer sk r s).m_url = s.m_url := by
  by_cases h1 : s.m_state = State.Succeeded
  · simp [finishTransfer, h1, abortSinkAndEmit, Task.emit]
  by_cases h2 : s.m_state = State.Failed
  · simp [finishTransfer, h2, abortSinkAndEmit, Task.emit]
  by_cases h3 : s.m_state = State.AbortedByUser
  · simp [finishTransfer, h3, abortSinkAndEmit, Task.emit]
  rw [finishTransfer_unrecorded sk r s h1 h2 h3]
  split_ifs <;> rfl

/-- C9: for a chain of any length of consecutive completions that each carry a valid
redirect location (and after each of which the next request is in flight), followed
by one completion that carries none: no terminal signal (and no `finished`) is
emitted during the hops, exactly one terminal signal is emitted by the final
completion, and the recorded URL `m_url` is the target of the last redirect as the
code records it, `QUrl(redirect.toString())`, which is that target itself when
re-parsing the string form of a valid URL gives the URL back.  For the empty chain
the URL is unchanged. -/
theorem redirect_chain_one_terminal_event (q : QUrlOps U) (sk : Sink U σ) (s : Download U σ)
    (hops : List (Int × QNetworkReply U)) (now : Int) (r : QNetworkReply U)
    (hs : s.m_state ≠ State.AbortedByUser)
    (hp : hopsProceed q sk s hops)
    (hr : redirectTarget q r = none) :
    (emitted s (deliverAll q sk s hops)).filter Event.isLifecycle = [] ∧
    (∃ e : Event U, e.isTerminal = true ∧
      (emitted (deliverAll q sk s hops)
        (downloadFinished q sk now r (deliverAll q sk s hops))).filter Event.isLifecycle
        = [e]) ∧
    (downloadFinished q sk now r (deliverAll q sk s hops)).m_url
      = urlAfterHops q s.m_url hops ∧
    ((∀ u, q.isValid u = true → q.fromString (q.toString u) = u) →
      ∀ c t, hops.getLast? = some c → redirectTarget q c.2 = some t →
        (downloadFinished q sk now r (deliverAll q sk s hops)).m_url = t) := by
  obtain ⟨_, hurl, evs, htr, hev⟩ := deliverAll_hops q sk s hops hs hp
  have h0 := handleRedirect_of_no_target q sk now r (deliverAll q sk s hops) hr
  have hfin : (downloadFinished q sk now r (deliverAll q sk s hops)).m_url
      = urlAfterHops q s.m_url hops := by
    unfold downloadFinished
    simp only [h0, Bool.false_eq_true, if_false]
    rw [finishTransfer_m_url]
    rcases handleRedirect_not_followed q sk now r _ h0 with h1 | h1 <;> simp [h1, hurl]
  refine ⟨?_, ?_, hfin, ?_⟩
  · rw [emitted_of_trace htr, hev]
  · exact attempt_emits_one_terminal_signal q sk now (deliverAll q sk s hops)
      (Attempt.finish r) h0
  · intro hrt c t hl ht
    rw [hfin, urlAfterHops_of_last q _ hops c t hl ht]
    exact hrt t (redirectTarget_isValid q c.2 t ht)

/-- Witness of C9: two hops, the first with a `Location` header Qt parsed and the
second with a path-only header, then a completion without redirect. -/
theorem redirect_chain_one_terminal_event_witness :
    (startedDownload goodScript ⟨false, false⟩).m_state ≠ State.AbortedByUser ∧
    hopsProceed plainUrl scriptedSink (startedDownload goodScript ⟨false, false⟩)
      [(1, redirectReply "http://b/y"), (2, rawRedirectReply "/z")] ∧
    redirectTarget plainUrl plainReply = none ∧
    (downloadFinished plainUrl scriptedSink 3 plainReply
      (deliverAll plainUrl scriptedSink (startedDownload goodScript ⟨false, false⟩)
        [(1, redirectReply "http://b/y"), (2, rawRedirectReply "/z")])).m_url
      = urlAfterHops plainUrl (startedDownload goodScript ⟨false, false⟩).m_url
          [(1, redirectReply "http://b/y"), (2, rawRedirectReply "/z")] :=
  ⟨by decide,
   ⟨⟨"http://b/y", by decide, by decide⟩, ⟨"http://a/z", by decide, by decide⟩, trivial⟩,
   by decide,
   (redirect_chain_one_terminal_event plainUrl scriptedSink
      (startedDownload goodScript ⟨false, false⟩)
      [(1, redirectReply "http://b/y"), (2, rawRedirectReply "/z")] 3 plainReply
      (by decide)
      ⟨⟨"http://b/y", by decide, by decide⟩, ⟨"http://a/z", by decide, by decide⟩, trivial⟩
      (by decide)).2.2.1⟩

/-- C10: for a reply whose `Location` header Qt did not parse and whose raw header
`raw` is non-empty, `handleRedirect` parses in tolerant mode: the reply URL's scheme
followed by `:` and `raw` when `raw` starts with `//`; otherwise, when `raw` starts
with `/`, the string form of the reply URL with its path set to `raw`; otherwise
`raw` unchanged.  It follows the redirect to the result when that is valid and
routes a protocol failure through `downloadError` when it is not. -/
theorem handleRedirect_normalizes_location (q : QUrlOps U) (sk : Sink U σ) (now : Int)
    (r : QNetworkReply U) (s : Download U σ) (raw : String)
    (hinv : q.isValid r.locationHeader = false)
    (hraw : r.rawLocation = some raw)
    (hne : raw.length ≠ 0) :
    handleRedirect q sk now r s =
      if q.isValid (q.fromString
          (if startsWith raw "//" then q.scheme r.url ++ ":" ++ raw
           else if startsWith raw "/" then q.toString (q.setPath r.url raw)
           else raw)) = true then
        followRedirect q sk now (q.fromString
          (if startsWith raw "//" then q.scheme r.url ++ ":" ++ raw
           else if startsWith raw "/" then q.toString (q.setPath r.url raw)
           else raw)) s
      else (false, downloadError sk NetworkError.ProtocolFailure s) := by
  unfold handleRedirect fixedLocation
  simp only [hinv, hraw, hne]
  split_ifs <;> simp_all

/-- Witness of C10: protocol-relative, path-only and other raw headers on a reply for
`http://a/x`. -/
theorem handleRedirect_normalizes_location_witness :
    plainUrl.isValid (rawRedirectReply "//b/y").locationHeader = false ∧
    (rawRedirectReply "//b/y").rawLocation = some "//b/y" ∧
    ("//b/y" : String).length ≠ 0 ∧
    handleRedirect plainUrl scriptedSink 1 (rawRedirectReply "//b/y")
        (startedDownload goodScript ⟨false, false⟩)
      = followRedirect plainUrl scriptedSink 1 "http://b/y"
          (startedDownload goodScript ⟨false, false⟩) :=
  ⟨by decide, by decide, by decide,
   (handleRedirect_normalizes_location plainUrl scriptedSink 1 (rawRedirectReply "//b/y")
      (startedDownload goodScript ⟨false, false⟩) "//b/y"
      (by decide) (by decide) (by decide)).trans (by decide)⟩


/-! ## Malformed redirect locations -/

/-- C12: when the `Location` header is present and non-empty but not a valid URL
even after the workarounds, `handleRedirect` follows no redirect and applies
`downloadError` with `ProtocolFailure`, which acts like every other error that is not
a cancellation.  The completion then leaves `m_url` unchanged, aborts the sink and
resets the reply, and ends in `Succeeded` when `AcceptLocalFiles` is set and the sink
has local data, and in `Failed` otherwise. -/
theorem malformed_location_is_protocol_failure (q : QUrlOps U) (sk : Sink U σ) (now : Int)
    (r : QNetworkReply U) (s : Download U σ) (raw : String)
    (hinv : q.isValid r.locationHeader = false)
    (hraw : r.rawLocation = some raw)
    (hne : raw.length ≠ 0)
    (hbad : q.isValid (q.fromString (fixedLocation q r.url raw)) = false) :
    handleRedirect q sk now r s
      = (false, downloadError sk NetworkError.ProtocolFailure s) ∧
    (∀ e, e ≠ NetworkError.OperationCanceledError →
      downloadError sk NetworkError.ProtocolFailure s = downloadError sk e s) ∧
    (downloadFinished q sk now r s).m_url = s.m_url ∧
    (downloadFinished q sk now r s).m_sink = sk.abort s.m_sink ∧
    (downloadFinished q sk now r s).m_reply = false ∧
    (if (s.m_options.AcceptLocalFiles && sk.hasLocalData s.m_sink) = true then
      (downloadFinished q sk now r s).m_state = State.Succeeded ∧
      emitted s (downloadFinished q sk now r s) = [Event.sinkAbort, Event.succeeded]
    else
      (downloadFinished q sk now r s).m_state = State.Failed ∧
      emitted s (downloadFinished q sk now r s) = [Event.sinkAbort, Event.failed ""]) := by
  have hh : handleRedirect q sk now r s
      = (false, downloadError sk NetworkError.ProtocolFailure s) := by
    unfold handleRedirect
    simp [hinv, hraw, hne, hbad]
  refine ⟨hh, ?_, ?_⟩
  · intro e he
    simp [downloadError, he]
  · unfold downloadFinished
    rw [hh]
    by_cases hl : (s.m_options.AcceptLocalFiles && sk.hasLocalData s.m_sink) = true
    · simp [downloadError, hl, finishTransfer, abortSinkAndEmit, Task.emit, emitted]
    · simp [downloadError, hl, finishTransfer, abortSinkAndEmit, Task.emit, emitted]

/-- Witness of C12: the header `zzz` on a reply for `http://a/x`, once without and
once with local data that may be used. -/
theorem malformed_location_is_protocol_failure_witness :
    plainUrl.isValid (rawRedirectReply "zzz").locationHeader = false ∧
    (rawRedirectReply "zzz").rawLocation = some "zzz" ∧
    ("zzz" : String).length ≠ 0 ∧
    plainUrl.isValid (plainUrl.fromString
      (fixedLocation plainUrl (rawRedirectReply "zzz").url "zzz")) = false ∧
    emitted (startedDownload goodScript ⟨false, false⟩)
      (downloadFinished plainUrl scriptedSink 1 (rawRedirectReply "zzz")
        (startedDownload goodScript ⟨false, false⟩))
      = [Event.sinkAbort, Event.failed ""] ∧
    emitted (startedDownload { goodScript with localData := true } ⟨true, false⟩)
      (downloadFinished plainUrl scriptedSink 1 (rawRedirectReply "zzz")
        (startedDownload { goodScript with localData := true } ⟨true, false⟩))
      = [Event.sinkAbort, Event.succeeded] :=
  ⟨by decide, by decide, by decide, by decide,
   ((malformed_location_is_protocol_failure plainUrl scriptedSink 1 (rawRedirectReply "zzz")
      (startedDownload goodScript ⟨false, false⟩) "zzz"
      (by decide) (by decide) (by decide) (by decide)).2.2.2.2.2).2,
   ((malformed_location_is_protocol_failure plainUrl scriptedSink 1 (rawRedirectReply "zzz")
      (startedDownload { goodScript with localData := true } ⟨true, false⟩) "zzz"
      (by decide) (by decide) (by decide) (by decide)).2.2.2.2.2).2⟩

/-! ## Download::downloadProgress -/

/-- What `downloadProgress` stores and reports, for every input: the details line is
built from `bytes_recived_since / elapsed_ms * 1000` when at least one millisecond has
elapsed and is `0 b/s` otherwise, the progress counters are set and `progress` is
emitted, and the stored sample `(m_last_progress_time, m_last_progress_bytes)` is left
as it was. -/
theorem downloadProgress_effect (p : ProgressOps) (now bytesReceived bytesTotal : Int)
    (s : Download U σ) :
    (downloadProgress p now bytesReceived bytesTotal s).m_details
      = (if elapsedMs p now s > 0 then
          p.humanReadableFileSize
            ((bytesReceived - s.m_last_progress_bytes).tdiv (elapsedMs p now s) * 1000) ++ "/s"
         else "0 b/s") ∧
    (downloadProgress p now bytesReceived bytesTotal s).m_last_progress_time
      = s.m_last_progress_time ∧
    (downloadProgress p now bytesReceived bytesTotal s).m_last_progress_bytes
      = s.m_last_progress_bytes ∧
    (downloadProgress p now bytesReceived bytesTotal s).m_progress = bytesReceived ∧
    (downloadProgress p now bytesReceived bytesTotal s).m_progressTotal = bytesTotal ∧
    emitted s (downloadProgress p now bytesReceived bytesTotal s)
      = [Event.progress bytesReceived bytesTotal] := by
  unfold downloadProgress downloadRate
  by_cases h : elapsedMs p now s > 0 <;>
    simp [h, Task.setProgress, Task.emit, emitted]

/-- C11 at a failing input: a started download has the baseline `(0, 0)` on a
millisecond clock.  A notification of 1500 bytes after 1000 ms is reported as
`1000 b/s`, because the code divides before it scales (`1500 / 1000 * 1000`), where
the claim says `1500 * 1000 / 1000 = 1500`; a notification of 999 bytes after 1000 ms
is reported as `0 b/s`.  The part for `t1 == t0` holds: the details line is `0 b/s`. -/
theorem progress_rate_divides_before_scaling :
    (startedDownload goodScript ⟨false, false⟩).m_last_progress_time = 0 ∧
    (startedDownload goodScript ⟨false, false⟩).m_last_progress_bytes = 0 ∧
    elapsedMs plainProgress 1000 (startedDownload goodScript ⟨false, false⟩) = 1000 ∧
    downloadRate plainProgress 1000 1500 (startedDownload goodScript ⟨false, false⟩) = 1000 ∧
    (1500 : Int) * 1000 / 1000 = 1500 ∧
    (downloadProgress plainProgress 1000 1500 4000
      (startedDownload goodScript ⟨false, false⟩)).m_details = "1000 b/s" ∧
    (downloadProgress plainProgress 1000 999 4000
      (startedDownload goodScript ⟨false, false⟩)).m_details = "0 b/s" ∧
    (downloadProgress plainProgress 0 1500 4000
      (startedDownload goodScript ⟨false, false⟩)).m_details = "0 b/s" := by
  decide

/-- C13 at a failing input: a started download has the baseline `(0, 0)` on a
millisecond clock.  After the notification `(1000, 8000)` handled at 1000 ms the stored
sample is still `(0, 0)`, not `(1000, 1000)`; the next notification `(5000, 8000)` at
2000 ms is therefore rated against the start of the transfer, `5000 / 2000 * 1000 =
2000`, not against the preceding sample, `4000 / 1000 * 1000 = 4000`.  The part about
reporting holds: each notification emits `progress` with its two counters. -/
theorem progress_baseline_not_updated :
    (downloadProgress plainProgress 1000 1000 8000
      (startedDownload goodScript ⟨false, false⟩)).m_last_progress_time = 0 ∧
    (downloadProgress plainProgress 1000 1000 8000
      (startedDownload goodScript ⟨false, false⟩)).m_last_progress_bytes = 0 ∧
    downloadRate plainProgress 2000 5000
      (downloadProgress plainProgress 1000 1000 8000
        (startedDownload goodScript ⟨false, false⟩)) = 2000 ∧
    ((5000 : Int) - 1000).tdiv (2000 - 1000) * 1000 = 4000 ∧
    (downloadProgress plainProgress 2000 5000 8000
      (downloadProgress plainProgress 1000 1000 8000
        (startedDownload goodScript ⟨false, false⟩))).m_details = "2000 b/s" ∧
    emitted (startedDownload goodScript ⟨false, false⟩)
      (downloadProgress plainProgress 2000 5000 8000
        (downloadProgress plainProgress 1000 1000 8000
          (startedDownload goodScript ⟨false, false⟩)))
      = [Event.progress 1000 8000, Event.progress 5000 8000] := by
  decide


/-! ## Version comparison -/

theorem Version.eqLoop_excludes (S : Type) (ops : SectionOps S) (a b : Version S) (n i : Nat)
    (h : Version.eqLoop ops a b n i = true) :
    Version.ltLoop ops a b n i = false ∧ Version.gtLoop ops a b n i = false := by
  induction n generalizing i with
  | zero => exact ⟨rfl, rfl⟩
  | succ n ih =>
    unfold Version.eqLoop at h
    unfold Version.ltLoop Version.gtLoop
    by_cases hne : ops.ne (a.sectionAt ops i) (b.sectionAt ops i) = true
    · simp [hne] at h
    · simp only [hne] at h ⊢
      exact ih (i + 1) h

/-- C15: the comparison operators of `Version` are mutually consistent, for section
lists of any lengths (the shorter one is padded with `Section("0")`) and whatever
the operators of `Section` are: if `a == b` then neither `a < b` nor `a > b`, and
`a <= b` and `a >= b` both hold; and `a != b` holds exactly when `a == b` does not. -/
theorem version_operators_consistent (S : Type) (ops : SectionOps S) (a b : Version S) :
    (Version.eq ops a b = true →
      Version.lt ops a b = false ∧ Version.gt ops a b = false ∧
      Version.le ops a b = true ∧ Version.ge ops a b = true) ∧
    (Version.ne ops a b = true ↔ Version.eq ops a b = false) := by
  constructor
  · intro h
    obtain ⟨h1, h2⟩ := Version.eqLoop_excludes S ops a b _ 0 h
    refine ⟨h1, h2, ?_, ?_⟩
    · simp [Version.le, h]
    · simp [Version.ge, h]
  · simp [Version.ne]

/-- Witness of C15: the versions `1.0` and `1` (sections `1`, `.`, `0` against `1`) are
equal after padding, and neither is less or greater than the other. -/
theorem version_operators_consistent_witness :
    Version.eq numberSections (Version.ofString numberSections Char.isDigit ['1', '.', '0'])
      (Version.ofString numberSections Char.isDigit ['1']) = true ∧
    Version.lt numberSections (Version.ofString numberSections Char.isDigit ['1', '.', '0'])
      (Version.ofString numberSections Char.isDigit ['1']) = false ∧
    Version.gt numberSections (Version.ofString numberSections Char.isDigit ['1', '.', '0'])
      (Version.ofString numberSections Char.isDigit ['1']) = false ∧
    Version.le numberSections (Version.ofString numberSections Char.isDigit ['1', '.', '0'])
      (Version.ofString numberSections Char.isDigit ['1']) = true ∧
    Version.ge numberSections (Version.ofString numberSections Char.isDigit ['1', '.', '0'])
      (Version.ofString numberSections Char.isDigit ['1']) = true :=
  ⟨by decide,
   (version_operators_consistent Nat numberSections
      (Version.ofString numberSections Char.isDigit ['1', '.', '0'])
      (Version.ofString numberSections Char.isDigit ['1'])).1 (by decide)⟩

/-! ## Version::parse -/

/-- One iteration of the loop of `Version::parse`, seen on the strings. -/
theorem Version.parseStep_strings (isDigit : Char → Bool) (str : List Char)
    (st : Version.ParseState (List Char)) (n : Nat) (c : Char) (hc : str[n]? = some c) :
    Version.parseStep (fun x => x) isDigit str st n =
      if (decide (n > 0) && Version.classChange isDigit (str.getD (n - 1) (Char.ofNat 0)) c)
          || Version.isSeparator c then
        { m_sections :=
            if st.currentSection = [] then st.m_sections
            else st.m_sections ++ [st.currentSection],
          currentSection := [c] }
      else { st with currentSection := st.currentSection ++ [c] } := by
  unfold Version.parseStep Version.isSeparator
  have hd : str.getD n (Char.ofNat 0) = c := by
    rw [List.getD_eq_getElem?_getD, hc]; rfl
  simp only [hd]
  by_cases hb : ((decide (n > 0) &&
      Version.classChange isDigit (str.getD (n - 1) (Char.ofNat 0)) c)
        || c == '.' || c == '-' || c == '+') = true
  · have hb2 : ((decide (n > 0) &&
        Version.classChange isDigit (str.getD (n - 1) (Char.ofNat 0)) c)
          || (c == '.' || c == '-' || c == '+')) = true := by
      simpa [Bool.or_assoc] using hb
    rw [if_pos hb, if_pos hb2]
    cases hcur : st.currentSection <;> simp
  · have hb2 : ¬ ((decide (n > 0) &&
        Version.classChange isDigit (str.getD (n - 1) (Char.ofNat 0)) c)
          || (c == '.' || c == '-' || c == '+')) = true := by
      simpa [Bool.or_assoc] using hb
    rw [if_neg hb, if_neg hb2]

theorem Version.parseLoop_succ (S : Type) (construct : List Char → S) (isDigit : Char → Bool)
    (str : List Char) (n : Nat) :
    Version.parseLoop construct isDigit str (n + 1)
      = Version.parseStep construct isDigit str (Version.parseLoop construct isDigit str n) n := by
  unfold Version.parseLoop
  rw [List.range_succ, List.foldl_append]
  rfl

/-- The invariant of the loop of `Version::parse` after `n` iterations: the finished
strings followed by the current one spell the first `n` characters, no finished
string is empty, the current string ends with the character handled last, and inside
every string no separator occurs after the first character and no two neighbours
differ in class. -/
theorem Version.parseLoop_invariant (isDigit : Char → Bool) (str : List Char) (n : Nat)
    (hn : n ≤ str.length) :
    (Version.parseLoop (fun x => x) isDigit str n).m_sections.flatten
        ++ (Version.parseLoop (fun x => x) isDigit str n).currentSection = str.take n ∧
    (∀ x ∈ (Version.parseLoop (fun x => x) isDigit str n).m_sections, x ≠ []) ∧
    (0 < n →
      (Version.parseLoop (fun x => x) isDigit str n).currentSection.getLast? = str[n - 1]?) ∧
    (n = 0 → (Version.parseLoop (fun x => x) isDigit str n).currentSection = []) ∧
    (∀ x ∈ (Version.parseLoop (fun x => x) isDigit str n).m_sections
          ++ [(Version.parseLoop (fun x => x) isDigit str n).currentSection],
      (∀ c ∈ x.tail, Version.isSeparator c = false) ∧
      List.Chain' (fun a b => Version.classChange isDigit a b = false) x) := by
  induction n with
  | zero =>
    refine ⟨by simp [Version.parseLoop], by simp [Version.parseLoop], by simp,
      by simp [Version.parseLoop], ?_⟩
    intro x hx
    simp [Version.parseLoop] at hx
    subst hx
    simp
  | succ n ih =>
    have hlt : n < str.length := hn
    obtain ⟨i1, i2, i3, i4, i5⟩ := ih (Nat.le_of_lt hlt)
    have hc : str[n]? = some str[n] := List.getElem?_eq_getElem hlt
    have htake : str.take (n + 1) = str.take n ++ [str[n]] := by
      rw [List.take_succ, hc]; rfl
    rw [Version.parseLoop_succ, Version.parseStep_strings isDigit str _ n str[n] hc]
    generalize Version.parseLoop (fun x => x) isDigit str n = st at i1 i2 i3 i4 i5 ⊢
    have hcur := i5 st.currentSection (by simp)
    by_cases hb : ((decide (n > 0) &&
        Version.classChange isDigit (str.getD (n - 1) (Char.ofNat 0)) str[n])
          || Version.isSeparator str[n]) = true
    · rw [if_pos hb]
      refine ⟨?_, ?_, ?_, ?_, ?_⟩
      · rw [htake, ← i1]
        by_cases he : st.currentSection = [] <;> simp [he]
      · intro x hx
        by_cases he : st.currentSection = []
        · simp only [he, if_true] at hx
          exact i2 x hx
        · simp only [he, if_false, List.mem_append, List.mem_singleton] at hx
          rcases hx with hx | hx
          · exact i2 x hx
          · rw [hx]; exact he
      · intro _
        simp [hc]
      · intro h0
        omega
      · intro x hx
        simp only [List.mem_append, List.mem_singleton] at hx
        rcases hx with hx | hx
        · apply i5 x
          by_cases he : st.currentSection = []
          · simp only [he, if_true] at hx
            simp [hx]
          · simp only [he, if_false, List.mem_append, List.mem_singleton] at hx
            simpa using hx
        · subst hx
          simp
    · rw [if_neg hb]
      have hb1 : Version.isSeparator str[n] = false := by
        by_contra hs
        exact hb (by simp [hs])
      have hb2 : 0 < n →
          Version.classChange isDigit (str.getD (n - 1) (Char.ofNat 0)) str[n] = false := by
        intro h0
        by_contra hs
        have hs2 : Version.classChange isDigit (str.getD (n - 1) (Char.ofNat 0)) str[n]
            = true := by simpa using hs
        apply hb
        rw [Bool.or_eq_true, Bool.and_eq_true]
        exact Or.inl ⟨decide_eq_true h0, hs2⟩
      refine ⟨?_, i2, ?_, ?_, ?_⟩
      · rw [htake, ← i1]
        simp
      · intro _
        simp [hc]
      · intro h0
        omega
      · intro x hx
        simp only [List.mem_append, List.mem_singleton] at hx
        rcases hx with hx | hx
        · exact i5 x (by simp [hx])
        · subst hx
          by_cases he : st.currentSection = []
          · simp [he]
          · have h0 : 0 < n := by
              by_contra hz
              exact he (i4 (by omega))
            have hlast := i3 h0
            have hprev : str[n - 1]? = some (str.getD (n - 1) (Char.ofNat 0)) := by
              rw [List.getD_eq_getElem?_getD]
              have : n - 1 < str.length := by omega
              rw [List.getElem?_eq_getElem this]
              rfl
            refine ⟨?_, ?_⟩
            · intro c hcm
              rw [List.tail_append_of_ne_nil he] at hcm
              rcases List.mem_append.mp hcm with hcm | hcm
              · exact hcur.1 c hcm
              · rw [List.mem_singleton.mp hcm]
                exact hb1
            · rw [List.chain'_append]
              refine ⟨hcur.2, List.chain'_singleton _, ?_⟩
              intro x hx y hy
              rw [hlast, hprev] at hx
              simp only [Option.mem_def, Option.some.injEq] at hx
              simp only [List.head?_cons, Option.mem_def, Option.some.injEq] at hy
              subst hx hy
              exact hb2 h0

theorem Version.parseStep_map (S : Type) (construct : List Char → S) (isDigit : Char → Bool)
    (str : List Char) (st : Version.ParseState S) (st2 : Version.ParseState (List Char))
    (i : Nat) (h1 : st.m_sections = st2.m_sections.map construct)
    (h2 : st.currentSection = st2.currentSection) :
    (Version.parseStep construct isDigit str st i).m_sections
      = (Version.parseStep (fun x => x) isDigit str st2 i).m_sections.map construct ∧
    (Version.parseStep construct isDigit str st i).currentSection
      = (Version.parseStep (fun x => x) isDigit str st2 i).currentSection := by
  unfold Version.parseStep
  dsimp only
  generalize ((decide (i > 0) &&
      Version.classChange isDigit (str.getD (i - 1) (Char.ofNat 0))
        (str.getD i (Char.ofNat 0)))
      || str.getD i (Char.ofNat 0) == '.' || str.getD i (Char.ofNat 0) == '-'
      || str.getD i (Char.ofNat 0) == '+') = b
  cases b <;> cases hcur : st2.currentSection <;> simp [h1, h2, hcur]

/-- The sections are the strings of `sectionStrings`, passed to the constructor of
`Section` in order. -/
theorem Version.parse_eq_map (S : Type) (construct : List Char → S) (isDigit : Char → Bool)
    (str : List Char) :
    Version.parse construct isDigit str
      = (Version.sectionStrings isDigit str).map construct := by
  have hloop : ∀ n,
      (Version.parseLoop construct isDigit str n).m_sections
        = (Version.parseLoop (fun x => x) isDigit str n).m_sections.map construct ∧
      (Version.parseLoop construct isDigit str n).currentSection
        = (Version.parseLoop (fun x => x) isDigit str n).currentSection := by
    intro n
    induction n with
    | zero => simp [Version.parseLoop]
    | succ n ih =>
      rw [Version.parseLoop_succ, Version.parseLoop_succ]
      exact Version.parseStep_map S construct isDigit str _ _ n ih.1 ih.2
  unfold Version.sectionStrings Version.parse
  simp only [(hloop str.length).1, (hloop str.length).2]
  split_ifs <;> simp

/-- The strings from which `Version::parse` builds the sections: they are passed to
the constructor in order, none is empty, their concatenation is the input string, a
separator occurs in a string only as its first character, and no two neighbouring
characters of a string are a class change in the sense of `classChange`. -/
theorem Version.sectionStrings_wellFormed (S : Type) (construct : List Char → S)
    (isDigit : Char → Bool) (str : List Char) :
    Version.parse construct isDigit str
      = (Version.sectionStrings isDigit str).map construct ∧
    (∀ x ∈ Version.sectionStrings isDigit str, x ≠ []) ∧
    (Version.sectionStrings isDigit str).flatten = str ∧
    (∀ x ∈ Version.sectionStrings isDigit str,
      (∀ c ∈ x.tail, Version.isSeparator c = false) ∧
      List.Chain' (fun a b => Version.classChange isDigit a b = false) x) := by
  obtain ⟨i1, i2, _, _, i5⟩ := Version.parseLoop_invariant isDigit str str.length (le_refl _)
  refine ⟨Version.parse_eq_map S construct isDigit str, ?_, ?_, ?_⟩
  · intro x hx
    unfold Version.sectionStrings Version.parse at hx
    by_cases he : (Version.parseLoop (fun x => x) isDigit str str.length).currentSection = []
    · simp only [he, List.isEmpty_nil, Bool.not_true, Bool.false_eq_true, if_false] at hx
      exact i2 x hx
    · have he2 : (Version.parseLoop (fun x => x) isDigit str str.length).currentSection.isEmpty
          = false := by simpa [List.isEmpty_iff] using he
      simp only [he2, Bool.not_false, if_true, List.mem_append, List.mem_singleton] at hx
      rcases hx with hx | hx
      · exact i2 x hx
      · rw [hx]; exact he
  · unfold Version.sectionStrings Version.parse
    rw [List.take_length] at i1
    by_cases he : (Version.parseLoop (fun x => x) isDigit str str.length).currentSection = []
    · simp only [he, List.isEmpty_nil, Bool.not_true, Bool.false_eq_true, if_false]
      simpa [he] using i1
    · have he2 : (Version.parseLoop (fun x => x) isDigit str str.length).currentSection.isEmpty
          = false := by simpa [List.isEmpty_iff] using he
      simp only [he2, Bool.not_false, if_true]
      simpa using i1
  · intro x hx
    apply i5 x
    unfold Version.sectionStrings Version.parse at hx
    by_cases he : (Version.parseLoop (fun x => x) isDigit str str.length).currentSection = []
    · simp only [he, List.isEmpty_nil, Bool.not_true, Bool.false_eq_true, if_false] at hx
      simp [hx]
    · have he2 : (Version.parseLoop (fun x => x) isDigit str str.length).currentSection.isEmpty
          = false := by simpa [List.isEmpty_iff] using he
      simp only [he2, Bool.not_false, if_true, List.mem_append, List.mem_singleton] at hx
      simpa using hx

theorem Version.classChange_eq_false (isDigit : Char → Bool) (a b : Char)
    (h : Version.classChange isDigit a b = false) (ha : a ≠ Char.ofNat 0) :
    isDigit a = isDigit b := by
  unfold Version.classChange at h
  have hn : (a == Char.ofNat 0) = false := by simpa using ha
  rw [hn] at h
  cases h1 : isDigit a <;> cases h2 : isDigit b <;> simp_all

/-- C14 as stated fails: for the string U+0000 followed by `1`, a non-digit followed
by a digit, `Version::parse` builds one section from the whole string, because
`classChange` reports no change after a null character.  So not every change between
digit and non-digit starts a new section. -/
theorem parse_no_split_after_null :
    Char.isDigit (Char.ofNat 0) = false ∧ Char.isDigit '1' = true ∧
    Version.sectionStrings Char.isDigit [Char.ofNat 0, '1'] = [[Char.ofNat 0, '1']] ∧
    ¬ (∀ x ∈ Version.sectionStrings Char.isDigit [Char.ofNat 0, '1'],
        List.Chain' (fun a b => Char.isDigit a = Char.isDigit b) x) := by
  refine ⟨by decide, by decide, by decide, ?_⟩
  intro h
  have hx := h [Char.ofNat 0, '1'] (by decide)
  rw [List.chain'_pair] at hx
  exact absurd hx (by decide)

/-- C14, amended: `Version::parse` neither loses nor reorders characters.  For every
input string the strings from which the sections are built (in order, one per
section) are all non-empty and their concatenation is the input string; a separator
`.`, `-` or `+` occurs in such a string only as its first character, so each separator
starts a new section and is kept as its first character; and a change between digit
and non-digit after a character that is not the null character U+0000 starts a new
section: inside such a string no two neighbours are a class change in the sense of
`classChange`, that is, a character that is not null and its successor are both
digits or both non-digits. -/
theorem parse_partitions_string (S : Type) (construct : List Char → S)
    (isDigit : Char → Bool) (str : List Char) :
    Version.parse construct isDigit str
      = (Version.sectionStrings isDigit str).map construct ∧
    (∀ x ∈ Version.sectionStrings isDigit str, x ≠ []) ∧
    (Version.sectionStrings isDigit str).flatten = str ∧
    (∀ x ∈ Version.sectionStrings isDigit str,
      (∀ c ∈ x.tail, Version.isSeparator c = false) ∧
      List.Chain' (fun a b => Version.classChange isDigit a b = false) x) ∧
    (∀ x ∈ Version.sectionStrings isDigit str,
      List.Chain' (fun a b => a ≠ Char.ofNat 0 → isDigit a = isDigit b) x) := by
  obtain ⟨h1, h2, h3, h4⟩ := Version.sectionStrings_wellFormed S construct isDigit str
  refine ⟨h1, h2, h3, h4, ?_⟩
  intro x hx
  exact List.Chain'.imp (fun a b h => Version.classChange_eq_false isDigit a b h) (h4 x hx).2

/-- Witness of C14: the string `1.20-pre3` is split into `1`, `.`, `20`, `-pre`, `3`,
and the pieces spell the string. -/
theorem parse_partitions_string_witness :
    Version.sectionStrings Char.isDigit ['1', '.', '2', '0', '-', 'p', 'r', 'e', '3']
      = [['1'], ['.'], ['2', '0'], ['-', 'p', 'r', 'e'], ['3']] ∧
    (Version.sectionStrings Char.isDigit
        ['1', '.', '2', '0', '-', 'p', 'r', 'e', '3']).flatten
      = ['1', '.', '2', '0', '-', 'p', 'r', 'e', '3'] :=
  ⟨by decide,
   (parse_partitions_string (List Char) (fun x => x) Char.isDigit
      ['1', '.', '2', '0', '-', 'p', 'r', 'e', '3']).2.2.1⟩

end Launcher
